import Mathlib

/-!
Verification of the payload transcoding subsystem
(`pkg/epp/framework/plugins/payloadprocess`): the vLLM gRPC transcoding
parser (`vllm_grpc.go`) and the OpenAI pass-through parser (`openai.go`).

The Go code is shallowly embedded: JSON bodies are modelled as an
inductive `Json` value (the result of lexical JSON parsing), Go pointer
fields as `Option`, Go multi-return `(val, err)` as `Except` (or as an
explicit pair where the code can return both `nil, nil`), and protobuf
binary decoding as an `Option` of the decoded message (`none` = the
bytes do not decode).
-/

namespace PayloadProcess

/-- The error taxonomy of the subsystem.  The Go code returns string
errors; each error site of the source maps to exactly one constructor:
`json.Unmarshal` / `proto.Unmarshal` failures → `MalformedInput`;
"expects a chat completions request" → `UnsupportedInput`;
"streaming is not yet implemented" → `UnsupportedFeature`;
"did not contain Complete block" / "unable to parse usage" →
`IncompleteResponse`. -/
inductive Err where
  | MalformedInput
  | UnsupportedInput
  | UnsupportedFeature
  | IncompleteResponse
  deriving DecidableEq, Repr

/-- A JSON value, as decoded from the wire.  Numbers are modelled as
rationals (JSON numbers are decimal literals; binary floating-point
rounding is not modelled, which no claim here depends on). -/
inductive Json where
  | null : Json
  | bool (b : Bool) : Json
  | num (q : ℚ) : Json
  | str (s : String) : Json
  | arr (elems : List Json) : Json
  | obj (fields : List (String × Json)) : Json

/-- First binding of a key in a JSON object's field list (Go maps have
unique keys, so first vs. last is immaterial for well-formed objects). -/
def jsonLookup : List (String × Json) → String → Option Json
  | [], _ => none
  | (k, v) :: rest, key => if k = key then some v else jsonLookup rest key

/-- Usage (`requestcontrol.Usage`): token-count accounting. -/
structure Usage where
  promptTokens : Nat
  completionTokens : Nat
  totalTokens : Nat
  deriving DecidableEq, Repr

/-- `payloadprocess.ParsedResponse`: wraps a Usage. -/
structure ParsedResponse where
  usage : Usage
  deriving DecidableEq, Repr

/-- A chat message.  Modelled from the spec: `scheduling.LLMRequestBody`
is an external collaborator type; `content` here is the message
content's plain-text rendering (`msg.Content.PlainText()`). -/
structure Message where
  role : String
  content : String

/-- Modelled from the spec: the chat-completions view of the canonical
request body (ordered sequence of messages). -/
structure ChatCompletionsRequest where
  messages : List Message

/-- Modelled from the spec: `scheduling.LLMRequestBody`, the canonical
request body produced by the external extraction collaborator.  Only
the field the transcoding parser reads is modelled. -/
structure LLMRequestBody where
  chatCompletions : Option ChatCompletionsRequest

/-! ### The Go `samplingParams` struct and its JSON decoding

`samplingParams` in `vllm_grpc.go` has fields `*int`, `*float32`,
`*int32`, `bool` and `any`.  `json.Unmarshal` into such a struct:
a pointer field stays `nil` when its key is absent or JSON-null and is
set when the key holds a value of the right shape; decoding a number
into a fixed-width integer type range-checks it and fails the whole
unmarshal when it does not fit (Go `encoding/json` semantics); a `bool`
field keeps its zero value `false` on absent/null; an `any` field holds
whatever JSON value was present (JSON null decodes to Go `nil`, which
the source cannot distinguish from an absent key). -/

/-- Decoded `samplingParams` (the Go struct after `json.Unmarshal`).
`maxTokens`/`n` are Go `*int` (64-bit), `seed` is `*int32`; the
`*float32` fields are modelled as exact rationals. -/
structure samplingParams where
  maxTokens : Option Int
  temperature : Option ℚ
  topP : Option ℚ
  frequencyPenalty : Option ℚ
  presencePenalty : Option ℚ
  n : Option Int
  seed : Option Int
  stream : Bool
  stop : Option Json

def int64Min : Int := -(2 ^ 63)
def int64Max : Int := 2 ^ 63 - 1
def int32Min : Int := -(2 ^ 31)
def int32Max : Int := 2 ^ 31 - 1

/-- Decode one JSON field into a Go pointer-to-integer of the given
range.  `none` = unmarshal error; `some none` = field left `nil`. -/
def decIntField (fields : List (String × Json)) (key : String)
    (lo hi : Int) : Option (Option Int) :=
  match jsonLookup fields key with
  | none => some none
  | some Json.null => some none
  | some (Json.num q) =>
      if q.den = 1 ∧ lo ≤ q.num ∧ q.num ≤ hi then some (some q.num) else none
  | some _ => none

/-- Decode one JSON field into a Go `*float32` (value modelled exactly). -/
def decFloatField (fields : List (String × Json)) (key : String) :
    Option (Option ℚ) :=
  match jsonLookup fields key with
  | none => some none
  | some Json.null => some none
  | some (Json.num q) => some (some q)
  | some _ => none

/-- Decode one JSON field into a Go `bool` (zero value `false` when the
key is absent or null). -/
def decBoolField (fields : List (String × Json)) (key : String) :
    Option Bool :=
  match jsonLookup fields key with
  | none => some false
  | some Json.null => some false
  | some (Json.bool b) => some b
  | some _ => none

/-- Decode one JSON field into a Go `any` (JSON null becomes Go `nil`,
indistinguishable from an absent key). -/
def decAnyField (fields : List (String × Json)) (key : String) :
    Option (Option Json) :=
  match jsonLookup fields key with
  | none => some none
  | some Json.null => some none
  | some v => some (some v)

/-- `json.Unmarshal(body, &params)` for the `samplingParams` struct.
`none` models an unmarshal error. -/
def decodeSamplingParams : Json → Option samplingParams
  | Json.obj fields => do
      let maxTokens ← decIntField fields "max_tokens" int64Min int64Max
      let temperature ← decFloatField fields "temperature"
      let topP ← decFloatField fields "top_p"
      let frequencyPenalty ← decFloatField fields "frequency_penalty"
      let presencePenalty ← decFloatField fields "presence_penalty"
      let n ← decIntField fields "n" int64Min int64Max
      let seed ← decIntField fields "seed" int32Min int32Max
      let stream ← decBoolField fields "stream"
      let stop ← decAnyField fields "stop"
      some ⟨maxTokens, temperature, topP, frequencyPenalty,
            presencePenalty, n, seed, stream, stop⟩
  | _ => none

/-! ### The vLLM protobuf messages

Modelled from the spec: the generated protobuf package
`protos/vllm/grpc` is repository code not present under `src/`; field
types follow the test file's usage (`*uint32` max_tokens, `*float32`
temperature, `float32` top_p, `uint32` n, `*int32` seed, `[]string`
stop) and the spec's response shape (a oneof of a terminal `complete`
section and an incremental `chunk` section, each carrying prompt-token
and completion-token counts, modelled as unbounded naturals). -/

/-- `vllm.SamplingParams` (the protobuf message being filled). -/
structure SamplingParams where
  maxTokens : Option Nat
  temperature : Option ℚ
  topP : ℚ
  frequencyPenalty : ℚ
  presencePenalty : ℚ
  n : Nat
  seed : Option Int
  stop : List String

/-- `vllm.GenerateRequest` (input oneof modelled as its only variant,
text). -/
structure GenerateRequest where
  requestId : String
  input : String
  samplingParams : SamplingParams
  stream : Bool

/-- Terminal section of a response. -/
structure GenerateComplete where
  promptTokens : Nat
  completionTokens : Nat
  finishReason : String

/-- Incremental section of a streaming response. -/
structure GenerateChunk where
  promptTokens : Nat
  completionTokens : Nat

/-- The response oneof. -/
inductive GenerateResponseBody where
  | complete (c : GenerateComplete)
  | chunk (c : GenerateChunk)

/-- `vllm.GenerateResponse`. -/
structure GenerateResponse where
  response : Option GenerateResponseBody

/-- `resp.GetComplete()`: the complete section if that is the set
variant, else nil. -/
def GenerateResponse.getComplete (r : GenerateResponse) :
    Option GenerateComplete :=
  match r.response with
  | some (GenerateResponseBody.complete c) => some c
  | _ => none

/-- `resp.GetChunk()`: the chunk section if that is the set variant,
else nil. -/
def GenerateResponse.getChunk (r : GenerateResponse) :
    Option GenerateChunk :=
  match r.response with
  | some (GenerateResponseBody.chunk c) => some c
  | _ => none

/-- Go conversion `uint32(v)` for `v : int`: two's-complement wrap. -/
def uint32OfInt (v : Int) : Nat := (v % (2 ^ 32 : Int)).toNat

/-- `vllmMaxTokens = 1024`. -/
def vllmMaxTokens : Nat := 1024

/-- `ParseSamplingParams(body)`: unmarshal the sampling subset of the
body, build a `vllm.SamplingParams` with defaults first, then overwrite
each field only if its pointer is non-nil; polymorphic `stop` handling;
returns the params together with the decoded stream flag. -/
def ParseSamplingParams (body : Json) : Except Err (SamplingParams × Bool) :=
  match decodeSamplingParams body with
  | none => Except.error Err.MalformedInput
  | some params =>
      let sp : SamplingParams :=
        { maxTokens := some vllmMaxTokens, temperature := none, topP := 1,
          frequencyPenalty := 0, presencePenalty := 0, n := 1,
          seed := none, stop := [] }
      let sp := match params.maxTokens with
        | some v => { sp with maxTokens := some (uint32OfInt v) }
        | none => sp
      let sp := match params.temperature with
        | some v => { sp with temperature := some v }
        | none => sp
      let sp := match params.topP with
        | some v => { sp with topP := v }
        | none => sp
      let sp := match params.frequencyPenalty with
        | some v => { sp with frequencyPenalty := v }
        | none => sp
      let sp := match params.presencePenalty with
        | some v => { sp with presencePenalty := v }
        | none => sp
      let sp := match params.n with
        | some v => { sp with n := uint32OfInt v }
        | none => sp
      let sp := match params.seed with
        | some v => { sp with seed := some v }
        | none => sp
      let sp := match params.stop with
        | some (Json.str s) => { sp with stop := [s] }
        | some (Json.arr items) =>
            { sp with stop := items.filterMap fun item =>
                match item with
                | Json.str s => some s
                | _ => none }
        | _ => sp
      Except.ok (sp, params.stream)

/-- Modelled from the spec: `requtil.RequestIdHeaderKey`, the
well-known request-ID header key (external collaborator constant). -/
def RequestIdHeaderKey : String := "x-request-id"

/-- Header map lookup (`headers[key]` with its `ok` flag). -/
def headerLookup : List (String × String) → String → Option String
  | [], _ => none
  | (k, v) :: rest, key => if k = key then some v else headerLookup rest key

/-- `ExtractRequestID(headers)`.  `freshId` stands for the value of
`uuid.NewString()` on this call (modelled from the spec: the uuid
library is external; a generated UUID string is never empty). -/
def ExtractRequestID (headers : List (String × String))
    (freshId : String) : String :=
  match headerLookup headers RequestIdHeaderKey with
  | some reqId => reqId
  | none => freshId

/-- `ExtractCombinedPrompt(extractedBody)`: concatenate each message's
plain-text content plus a newline via a string builder loop; error when
there is no chat-completions view. -/
def ExtractCombinedPrompt (extractedBody : LLMRequestBody) :
    Except Err String :=
  match extractedBody.chatCompletions with
  | none => Except.error Err.UnsupportedInput
  | some cc =>
      Except.ok (cc.messages.foldl (fun acc msg => acc ++ msg.content ++ "\n") "")

/-- `TranscodeJsonToGrpc(headers, body, extractedBody)`: id, prompt,
sampling params, then the streaming rejection, then assembly. -/
def TranscodeJsonToGrpc (headers : List (String × String))
    (freshId : String) (body : Json) (extractedBody : LLMRequestBody) :
    Except Err GenerateRequest :=
  let requestId := ExtractRequestID headers freshId
  match ExtractCombinedPrompt extractedBody with
  | Except.error e => Except.error e
  | Except.ok prompt =>
      match ParseSamplingParams body with
      | Except.error e => Except.error e
      | Except.ok (samplingParams, stream) =>
          if stream then Except.error Err.UnsupportedFeature
          else Except.ok { requestId := requestId, input := prompt,
                           samplingParams := samplingParams,
                           stream := stream }

/-- `VLLMGrpcParser.ParseResponse(body)`.  The argument is the outcome
of `proto.Unmarshal` on the body (`none` = the bytes do not decode). -/
def VLLMParseResponse (decoded : Option GenerateResponse) :
    Except Err ParsedResponse :=
  match decoded with
  | none => Except.error Err.MalformedInput
  | some resp =>
      match resp.getComplete with
      | none => Except.error Err.IncompleteResponse
      | some complete =>
          Except.ok ⟨⟨complete.promptTokens, complete.completionTokens,
                      complete.promptTokens + complete.completionTokens⟩⟩

/-- `VLLMGrpcParser.ParseStreamResponse(chunk)`.  The argument is the
outcome of `proto.Unmarshal` on the chunk. -/
def VLLMParseStreamResponse (decoded : Option GenerateResponse) :
    Except Err ParsedResponse :=
  match decoded with
  | none => Except.error Err.MalformedInput
  | some resp =>
      match resp.getComplete with
      | some complete =>
          Except.ok ⟨⟨complete.promptTokens, complete.completionTokens,
                      complete.promptTokens + complete.completionTokens⟩⟩
      | none =>
          match resp.getChunk with
          | some ch =>
              Except.ok ⟨⟨ch.promptTokens, ch.completionTokens,
                          ch.promptTokens + ch.completionTokens⟩⟩
          | none => Except.error Err.IncompleteResponse

/-! ### The OpenAI pass-through parser (`openai.go`)

Its response methods delegate byte-level usage extraction to the
external collaborators `resputil.ExtractUsage` (returning
`(usage, err)`) and `resputil.ExtractUsageStreaming` (returning a body
whose `Usage` field may be nil).  The collaborator's report is passed
in as the argument.  Go's two-valued return is kept as an explicit
pair, because `ParseResponse` can return both values nil. -/

/-- `OpenAIParser.ParseResponse`: `usage, err := ExtractUsage(body);
if err != nil || usage == nil { return nil, err };
return &ParsedResponse{Usage: usage}, nil`. -/
def OpenAIParseResponse (usage : Option Usage) (err : Option Err) :
    Option ParsedResponse × Option Err :=
  if err.isSome || usage.isNone then (none, err)
  else (usage.map fun u => ⟨u⟩, none)

/-- `OpenAIParser.ParseStreamResponse`: error when the collaborator
reports no usage in the chunk, success wrapping the usage otherwise. -/
def OpenAIParseStreamResponse (usage : Option Usage) :
    Option ParsedResponse × Option Err :=
  match usage with
  | none => (none, some Err.IncompleteResponse)
  | some u => (some ⟨u⟩, none)

/-! ### Characterization of `ParseSamplingParams` -/

/-- The stop sequence produced by the `switch` on the decoded `stop`
value: a string gives a singleton, an array keeps its string elements,
anything else leaves the sequence empty. -/
def stopSequence : Option Json → List String
  | some (Json.str s) => [s]
  | some (Json.arr items) =>
      items.filterMap fun item =>
        match item with
        | Json.str s => some s
        | _ => none
  | _ => []

/-- The `vllm.SamplingParams` that the default-then-override chain
produces from decoded params. -/
def samplingOutput (p : samplingParams) : SamplingParams :=
  { maxTokens := some ((p.maxTokens.map uint32OfInt).getD vllmMaxTokens),
    temperature := p.temperature,
    topP := p.topP.getD 1,
    frequencyPenalty := p.frequencyPenalty.getD 0,
    presencePenalty := p.presencePenalty.getD 0,
    n := (p.n.map uint32OfInt).getD 1,
    seed := p.seed,
    stop := stopSequence p.stop }

lemma parseSamplingParams_eq (body : Json) (p : samplingParams)
    (h : decodeSamplingParams body = some p) :
    ParseSamplingParams body = Except.ok (samplingOutput p, p.stream) := by
  unfold ParseSamplingParams
  rw [h]
  obtain ⟨mt, te, tp, fp, pp, n, sd, st, stp⟩ := p
  cases stp with
  | none =>
      cases mt <;> cases te <;> cases tp <;> cases fp <;> cases pp <;>
        cases n <;> cases sd <;> rfl
  | some j =>
      cases j <;> cases mt <;> cases te <;> cases tp <;> cases fp <;>
        cases pp <;> cases n <;> cases sd <;> rfl

lemma decode_fields_eq (fields : List (String × Json)) (p : samplingParams)
    (h : decodeSamplingParams (Json.obj fields) = some p) :
    decIntField fields "max_tokens" int64Min int64Max = some p.maxTokens ∧
    decFloatField fields "temperature" = some p.temperature ∧
    decFloatField fields "top_p" = some p.topP ∧
    decFloatField fields "frequency_penalty" = some p.frequencyPenalty ∧
    decFloatField fields "presence_penalty" = some p.presencePenalty ∧
    decIntField fields "n" int64Min int64Max = some p.n ∧
    decIntField fields "seed" int32Min int32Max = some p.seed ∧
    decBoolField fields "stream" = some p.stream ∧
    decAnyField fields "stop" = some p.stop := by
  simp only [decodeSamplingParams, bind, Option.bind_eq_some,
    Option.some.injEq] at h
  obtain ⟨mt, hmt, te, hte, tp, htp, fp, hfp, pp, hpp, n, hn, sd, hsd,
    st, hst, stp, hstp, hp⟩ := h
  subst hp
  exact ⟨hmt, hte, htp, hfp, hpp, hn, hsd, hst, hstp⟩

/-- A JSON key is absent or bound to JSON null. -/
def absentOrNull (fields : List (String × Json)) (key : String) : Prop :=
  jsonLookup fields key = none ∨ jsonLookup fields key = some Json.null

lemma decIntField_of_absentOrNull {fields : List (String × Json)}
    {key : String} (lo hi : Int) (h : absentOrNull fields key) :
    decIntField fields key lo hi = some none := by
  rcases h with h | h <;> simp [decIntField, h]

lemma decFloatField_of_absentOrNull {fields : List (String × Json)}
    {key : String} (h : absentOrNull fields key) :
    decFloatField fields key = some none := by
  rcases h with h | h <;> simp [decFloatField, h]

lemma decAnyField_of_absentOrNull {fields : List (String × Json)}
    {key : String} (h : absentOrNull fields key) :
    decAnyField fields key = some none := by
  rcases h with h | h <;> simp [decAnyField, h]

lemma jsonLookup_cons_ne {k key : String} (h : k ≠ key)
    (v : Json) (fields : List (String × Json)) :
    jsonLookup ((k, v) :: fields) key = jsonLookup fields key := by
  simp [jsonLookup, h]

lemma decIntField_cons_ne {k key : String} (h : k ≠ key) (v : Json)
    (fields : List (String × Json)) (lo hi : Int) :
    decIntField ((k, v) :: fields) key lo hi = decIntField fields key lo hi := by
  simp only [decIntField, jsonLookup_cons_ne h]

lemma decFloatField_cons_ne {k key : String} (h : k ≠ key) (v : Json)
    (fields : List (String × Json)) :
    decFloatField ((k, v) :: fields) key = decFloatField fields key := by
  simp only [decFloatField, jsonLookup_cons_ne h]

lemma decBoolField_cons_ne {k key : String} (h : k ≠ key) (v : Json)
    (fields : List (String × Json)) :
    decBoolField ((k, v) :: fields) key = decBoolField fields key := by
  simp only [decBoolField, jsonLookup_cons_ne h]

lemma decAnyField_cons_ne {k key : String} (h : k ≠ key) (v : Json)
    (fields : List (String × Json)) :
    decAnyField ((k, v) :: fields) key = decAnyField fields key := by
  simp only [decAnyField, jsonLookup_cons_ne h]

lemma jsonLookup_cons_self (k : String) (v : Json)
    (fields : List (String × Json)) :
    jsonLookup ((k, v) :: fields) k = some v := by
  simp [jsonLookup]

lemma decIntField_cons_1024 (fields : List (String × Json)) (k : String) :
    decIntField ((k, Json.num 1024) :: fields) k int64Min int64Max =
      some (some 1024) := by
  simp only [decIntField, jsonLookup_cons_self]
  rw [if_pos]
  · norm_num
  · refine ⟨by norm_num, by norm_num [int64Min], by norm_num [int64Max]⟩

lemma decIntField_cons_one (fields : List (String × Json)) (k : String) :
    decIntField ((k, Json.num 1) :: fields) k int64Min int64Max =
      some (some 1) := by
  simp only [decIntField, jsonLookup_cons_self]
  rw [if_pos]
  · norm_num
  · refine ⟨by norm_num, by norm_num [int64Min], by norm_num [int64Max]⟩

lemma decFloatField_cons_one (fields : List (String × Json)) (k : String) :
    decFloatField ((k, Json.num 1) :: fields) k = some (some 1) := by
  simp only [decFloatField, jsonLookup_cons_self]

lemma decode_cons_maxTokens (fields : List (String × Json))
    (hmt : jsonLookup fields "max_tokens" = none) :
    decodeSamplingParams (Json.obj (("max_tokens", Json.num 1024) :: fields)) =
      (decodeSamplingParams (Json.obj fields)).map
        fun p => { p with maxTokens := some 1024 } := by
  simp only [decodeSamplingParams]
  rw [decIntField_cons_1024,
    decIntField_of_absentOrNull int64Min int64Max (Or.inl hmt),
    decFloatField_cons_ne (by decide), decFloatField_cons_ne (by decide),
    decFloatField_cons_ne (by decide), decFloatField_cons_ne (by decide),
    decIntField_cons_ne (by decide), decIntField_cons_ne (by decide),
    decBoolField_cons_ne (by decide), decAnyField_cons_ne (by decide)]
  cases decFloatField fields "temperature" <;>
    cases decFloatField fields "top_p" <;>
    cases decFloatField fields "frequency_penalty" <;>
    cases decFloatField fields "presence_penalty" <;>
    cases decIntField fields "n" int64Min int64Max <;>
    cases decIntField fields "seed" int32Min int32Max <;>
    cases decBoolField fields "stream" <;>
    cases decAnyField fields "stop" <;> rfl

lemma decode_cons_topP (fields : List (String × Json))
    (htp : jsonLookup fields "top_p" = none) :
    decodeSamplingParams (Json.obj (("top_p", Json.num 1) :: fields)) =
      (decodeSamplingParams (Json.obj fields)).map
        fun p => { p with topP := some 1 } := by
  simp only [decodeSamplingParams]
  rw [decFloatField_cons_one,
    decFloatField_of_absentOrNull (Or.inl htp),
    decIntField_cons_ne (by decide), decFloatField_cons_ne (by decide),
    decFloatField_cons_ne (by decide), decFloatField_cons_ne (by decide),
    decIntField_cons_ne (by decide), decIntField_cons_ne (by decide),
    decBoolField_cons_ne (by decide), decAnyField_cons_ne (by decide)]
  cases decIntField fields "max_tokens" int64Min int64Max <;>
    cases decFloatField fields "temperature" <;>
    cases decFloatField fields "frequency_penalty" <;>
    cases decFloatField fields "presence_penalty" <;>
    cases decIntField fields "n" int64Min int64Max <;>
    cases decIntField fields "seed" int32Min int32Max <;>
    cases decBoolField fields "stream" <;>
    cases decAnyField fields "stop" <;> rfl

lemma decode_cons_n (fields : List (String × Json))
    (hn : jsonLookup fields "n" = none) :
    decodeSamplingParams (Json.obj (("n", Json.num 1) :: fields)) =
      (decodeSamplingParams (Json.obj fields)).map
        fun p => { p with n := some 1 } := by
  simp only [decodeSamplingParams]
  rw [decIntField_cons_one,
    decIntField_of_absentOrNull int64Min int64Max (Or.inl hn),
    decIntField_cons_ne (by decide), decFloatField_cons_ne (by decide),
    decFloatField_cons_ne (by decide), decFloatField_cons_ne (by decide),
    decFloatField_cons_ne (by decide), decIntField_cons_ne (by decide),
    decBoolField_cons_ne (by decide), decAnyField_cons_ne (by decide)]
  cases decIntField fields "max_tokens" int64Min int64Max <;>
    cases decFloatField fields "temperature" <;>
    cases decFloatField fields "top_p" <;>
    cases decFloatField fields "frequency_penalty" <;>
    cases decFloatField fields "presence_penalty" <;>
    cases decIntField fields "seed" int32Min int32Max <;>
    cases decBoolField fields "stream" <;>
    cases decAnyField fields "stop" <;> rfl

lemma parse_cons_maxTokens (fields : List (String × Json))
    (hmt : jsonLookup fields "max_tokens" = none) :
    ParseSamplingParams (Json.obj (("max_tokens", Json.num 1024) :: fields)) =
      ParseSamplingParams (Json.obj fields) := by
  have hd := decode_cons_maxTokens fields hmt
  cases hbase : decodeSamplingParams (Json.obj fields) with
  | none =>
      rw [hbase] at hd
      simp only [Option.map_none'] at hd
      simp [ParseSamplingParams, hd, hbase]
  | some p =>
      rw [hbase] at hd
      simp only [Option.map_some'] at hd
      have hpm : p.maxTokens = none := by
        have h1 := (decode_fields_eq fields p hbase).1
        rw [decIntField_of_absentOrNull int64Min int64Max (Or.inl hmt)] at h1
        exact (Option.some_inj.mp h1).symm
      rw [parseSamplingParams_eq _ _ hd, parseSamplingParams_eq _ _ hbase]
      simp [samplingOutput, hpm, uint32OfInt, vllmMaxTokens]

lemma parse_cons_topP (fields : List (String × Json))
    (htp : jsonLookup fields "top_p" = none) :
    ParseSamplingParams (Json.obj (("top_p", Json.num 1) :: fields)) =
      ParseSamplingParams (Json.obj fields) := by
  have hd := decode_cons_topP fields htp
  cases hbase : decodeSamplingParams (Json.obj fields) with
  | none =>
      rw [hbase] at hd
      simp only [Option.map_none'] at hd
      simp [ParseSamplingParams, hd, hbase]
  | some p =>
      rw [hbase] at hd
      simp only [Option.map_some'] at hd
      have hpt : p.topP = none := by
        have h1 := (decode_fields_eq fields p hbase).2.2.1
        rw [decFloatField_of_absentOrNull (Or.inl htp)] at h1
        exact (Option.some_inj.mp h1).symm
      rw [parseSamplingParams_eq _ _ hd, parseSamplingParams_eq _ _ hbase]
      simp [samplingOutput, hpt]

lemma parse_cons_n (fields : List (String × Json))
    (hn : jsonLookup fields "n" = none) :
    ParseSamplingParams (Json.obj (("n", Json.num 1) :: fields)) =
      ParseSamplingParams (Json.obj fields) := by
  have hd := decode_cons_n fields hn
  cases hbase : decodeSamplingParams (Json.obj fields) with
  | none =>
      rw [hbase] at hd
      simp only [Option.map_none'] at hd
      simp [ParseSamplingParams, hd, hbase]
  | some p =>
      rw [hbase] at hd
      simp only [Option.map_some'] at hd
      have hpn : p.n = none := by
        have h1 := (decode_fields_eq fields p hbase).2.2.2.2.2.1
        rw [decIntField_of_absentOrNull int64Min int64Max (Or.inl hn)] at h1
        exact (Option.some_inj.mp h1).symm
      rw [parseSamplingParams_eq _ _ hd, parseSamplingParams_eq _ _ hbase]
      simp [samplingOutput, hpn, uint32OfInt]

/-- C3: sampling-parameter extraction applies the defaults
max_tokens=1024, top_p=1.0, n=1 (temperature and seed unset, stop
empty) exactly when the corresponding JSON key is absent or null, and a
body carrying a field explicitly set to its default value produces the
same `SamplingParams` as a body with that field absent. -/
theorem sampling_defaults_c3 (fields : List (String × Json)) :
    (∀ sp stream,
      ParseSamplingParams (Json.obj fields) = Except.ok (sp, stream) →
      (absentOrNull fields "max_tokens" → sp.maxTokens = some 1024) ∧
      (absentOrNull fields "top_p" → sp.topP = 1) ∧
      (absentOrNull fields "n" → sp.n = 1) ∧
      (absentOrNull fields "temperature" → sp.temperature = none) ∧
      (absentOrNull fields "seed" → sp.seed = none) ∧
      (absentOrNull fields "stop" → sp.stop = [])) ∧
    (jsonLookup fields "max_tokens" = none →
      ParseSamplingParams (Json.obj (("max_tokens", Json.num 1024) :: fields)) =
        ParseSamplingParams (Json.obj fields)) ∧
    (jsonLookup fields "top_p" = none →
      ParseSamplingParams (Json.obj (("top_p", Json.num 1) :: fields)) =
        ParseSamplingParams (Json.obj fields)) ∧
    (jsonLookup fields "n" = none →
      ParseSamplingParams (Json.obj (("n", Json.num 1) :: fields)) =
        ParseSamplingParams (Json.obj fields)) := by
  refine ⟨?_, parse_cons_maxTokens fields, parse_cons_topP fields,
    parse_cons_n fields⟩
  intro sp stream hok
  cases hdec : decodeSamplingParams (Json.obj fields) with
  | none => simp [ParseSamplingParams, hdec] at hok
  | some p =>
      rw [parseSamplingParams_eq _ _ hdec, Except.ok.injEq,
        Prod.mk.injEq] at hok
      obtain ⟨hsp, -⟩ := hok
      subst hsp
      obtain ⟨hmt, hte, htp, hfp, hpp, hn, hsd, hst, hstp⟩ :=
        decode_fields_eq fields p hdec
      refine ⟨?_, ?_, ?_, ?_, ?_, ?_⟩ <;> intro habs
      · rw [decIntField_of_absentOrNull int64Min int64Max habs] at hmt
        simp [samplingOutput, (Option.some_inj.mp hmt).symm, vllmMaxTokens]
      · rw [decFloatField_of_absentOrNull habs] at htp
        simp [samplingOutput, (Option.some_inj.mp htp).symm]
      · rw [decIntField_of_absentOrNull int64Min int64Max habs] at hn
        simp [samplingOutput, (Option.some_inj.mp hn).symm]
      · rw [decFloatField_of_absentOrNull habs] at hte
        simp [samplingOutput, (Option.some_inj.mp hte).symm]
      · rw [decIntField_of_absentOrNull int32Min int32Max habs] at hsd
        simp [samplingOutput, (Option.some_inj.mp hsd).symm]
      · rw [decAnyField_of_absentOrNull habs] at hstp
        simp [samplingOutput, (Option.some_inj.mp hstp).symm, stopSequence]

/-- Witness for C3: a body with only `messages` decodes to exactly the
defaulted structure, and an explicit `max_tokens: 1024` is
indistinguishable from an absent `max_tokens`. -/
theorem sampling_defaults_c3_witness :
    ∃ sp : SamplingParams,
      ParseSamplingParams (Json.obj [("messages", Json.arr [])]) =
        Except.ok (sp, false) ∧
      sp.maxTokens = some 1024 ∧ sp.topP = 1 ∧ sp.n = 1 ∧
      sp.temperature = none ∧ sp.seed = none ∧ sp.stop = [] ∧
      ParseSamplingParams
          (Json.obj [("max_tokens", Json.num 1024), ("messages", Json.arr [])]) =
        ParseSamplingParams (Json.obj [("messages", Json.arr [])]) := by
  refine ⟨_, rfl, ?_, ?_, ?_, ?_, ?_, ?_, ?_⟩
  · exact ((sampling_defaults_c3 [("messages", Json.arr [])]).1 _ false rfl).1 (Or.inl rfl)
  · exact ((sampling_defaults_c3 [("messages", Json.arr [])]).1 _ false rfl).2.1 (Or.inl rfl)
  · exact ((sampling_defaults_c3 [("messages", Json.arr [])]).1 _ false rfl).2.2.1 (Or.inl rfl)
  · exact ((sampling_defaults_c3 [("messages", Json.arr [])]).1 _ false rfl).2.2.2.1 (Or.inl rfl)
  · exact ((sampling_defaults_c3 [("messages", Json.arr [])]).1 _ false rfl).2.2.2.2.1 (Or.inl rfl)
  · exact ((sampling_defaults_c3 [("messages", Json.arr [])]).1 _ false rfl).2.2.2.2.2 (Or.inl rfl)
  · exact (sampling_defaults_c3 [("messages", Json.arr [])]).2.1 rfl

/-- C5: stop-field polymorphism — a single string yields a singleton
sequence, an array keeps exactly its string elements in order, an
absent key yields the empty sequence. -/
theorem stop_polymorphism_c5 (fields : List (String × Json))
    (sp : SamplingParams) (stream : Bool)
    (h : ParseSamplingParams (Json.obj fields) = Except.ok (sp, stream)) :
    (∀ s, jsonLookup fields "stop" = some (Json.str s) → sp.stop = [s]) ∧
    (∀ items, jsonLookup fields "stop" = some (Json.arr items) →
      sp.stop = items.filterMap fun item =>
        match item with
        | Json.str s => some s
        | _ => none) ∧
    (jsonLookup fields "stop" = none → sp.stop = []) := by
  cases hdec : decodeSamplingParams (Json.obj fields) with
  | none => simp [ParseSamplingParams, hdec] at h
  | some p =>
      rw [parseSamplingParams_eq _ _ hdec, Except.ok.injEq,
        Prod.mk.injEq] at h
      obtain ⟨hsp, -⟩ := h
      subst hsp
      have hstp := (decode_fields_eq fields p hdec).2.2.2.2.2.2.2.2
      refine ⟨?_, ?_, ?_⟩
      · intro s hs
        simp only [decAnyField, hs] at hstp
        simp [samplingOutput, ← Option.some_inj.mp hstp, stopSequence]
      · intro items hs
        simp only [decAnyField, hs] at hstp
        simp [samplingOutput, ← Option.some_inj.mp hstp, stopSequence]
      · intro hs
        simp only [decAnyField, hs] at hstp
        simp [samplingOutput, ← Option.some_inj.mp hstp, stopSequence]

/-- Witness for C5: `"STOP"` yields `["STOP"]` and
`["STOP", 5, "END"]` yields `["STOP", "END"]`. -/
theorem stop_polymorphism_c5_witness :
    ∃ sp : SamplingParams,
      ParseSamplingParams
          (Json.obj [("stop",
            Json.arr [Json.str "STOP", Json.num 5, Json.str "END"])]) =
        Except.ok (sp, false) ∧
      sp.stop = ["STOP", "END"] ∧
      ∃ sp2 : SamplingParams,
        ParseSamplingParams (Json.obj [("stop", Json.str "STOP")]) =
          Except.ok (sp2, false) ∧
        sp2.stop = ["STOP"] := by
  refine ⟨_, rfl, ?_, _, rfl, ?_⟩
  · exact (stop_polymorphism_c5
      [("stop", Json.arr [Json.str "STOP", Json.num 5, Json.str "END"])]
      _ false rfl).2.1 _ rfl
  · exact (stop_polymorphism_c5 [("stop", Json.str "STOP")] _ false rfl).1
      _ rfl

/-- C10: a `stop` value that is neither a string nor an array is
silently ignored — extraction succeeds with an empty stop sequence. -/
theorem stop_fallback_c10 (fields : List (String × Json)) (v : Json)
    (p : samplingParams)
    (hdec : decodeSamplingParams (Json.obj fields) = some p)
    (hv : jsonLookup fields "stop" = some v)
    (hstr : ∀ s, v ≠ Json.str s)
    (harr : ∀ items, v ≠ Json.arr items) :
    ∃ sp, ParseSamplingParams (Json.obj fields) = Except.ok (sp, p.stream) ∧
      sp.stop = [] := by
  refine ⟨samplingOutput p, parseSamplingParams_eq _ _ hdec, ?_⟩
  have hstp := (decode_fields_eq fields p hdec).2.2.2.2.2.2.2.2
  cases v with
  | str s => exact absurd rfl (hstr s)
  | arr items => exact absurd rfl (harr items)
  | null =>
      simp only [decAnyField, hv] at hstp
      simp [samplingOutput, ← Option.some_inj.mp hstp, stopSequence]
  | bool b =>
      simp only [decAnyField, hv] at hstp
      simp [samplingOutput, ← Option.some_inj.mp hstp, stopSequence]
  | num q =>
      simp only [decAnyField, hv] at hstp
      simp [samplingOutput, ← Option.some_inj.mp hstp, stopSequence]
  | obj fs =>
      simp only [decAnyField, hv] at hstp
      simp [samplingOutput, ← Option.some_inj.mp hstp, stopSequence]

/-- Witness for C10: `stop: 5` is ignored and extraction succeeds with
an empty stop sequence. -/
theorem stop_fallback_c10_witness :
    ∃ sp, ParseSamplingParams (Json.obj [("stop", Json.num 5)]) =
        Except.ok (sp, false) ∧ sp.stop = [] :=
  stop_fallback_c10 [("stop", Json.num 5)] (Json.num 5)
    ⟨none, none, none, none, none, none, none, false, some (Json.num 5)⟩
    rfl rfl (fun _ h => nomatch h) (fun _ h => nomatch h)

/-- C9 counterexample: an out-of-range numeric value can make
parse-request fail after all — a `seed` just outside the 32-bit range
is rejected by the JSON decode into the `*int32` struct field, so
sampling-parameter extraction reports a malformed input instead of
passing the value through narrowed. -/
theorem numeric_narrowing_c9_counterexample :
    ParseSamplingParams (Json.obj [("seed", Json.num 2147483648)]) =
      Except.error Err.MalformedInput := by
  rfl

/-- C9 (amended): integer sampling values that survive JSON decoding
are narrowed with no bounds validation in the transcoding layer —
`max_tokens` and `n` (decoded at 64-bit width) are wrapped to 32 bits
by direct conversion and never cause a failure — but a numeric value
out of range of its fixed-width decode target (`seed` at 32-bit,
`max_tokens`/`n` at 64-bit) already fails JSON decoding and surfaces as
MalformedInput. -/
theorem numeric_narrowing_c9 (body : Json) (p : samplingParams)
    (h : decodeSamplingParams body = some p) :
    ∃ sp, ParseSamplingParams body = Except.ok (sp, p.stream) ∧
      sp.maxTokens = some ((p.maxTokens.map uint32OfInt).getD vllmMaxTokens) ∧
      sp.n = (p.n.map uint32OfInt).getD 1 ∧
      sp.temperature = p.temperature ∧
      sp.topP = p.topP.getD 1 ∧
      sp.frequencyPenalty = p.frequencyPenalty.getD 0 ∧
      sp.presencePenalty = p.presencePenalty.getD 0 ∧
      sp.seed = p.seed :=
  ⟨samplingOutput p, parseSamplingParams_eq body p h,
    rfl, rfl, rfl, rfl, rfl, rfl, rfl⟩

/-- Witness for C9 (amended): `max_tokens: -1` and `n: 4294967297` pass
through without failure, wrapped to 4294967295 and 1. -/
theorem numeric_narrowing_c9_witness :
    ∃ sp, ParseSamplingParams
        (Json.obj [("max_tokens", Json.num (-1)),
                   ("n", Json.num 4294967297)]) =
        Except.ok (sp, false) ∧
      sp.maxTokens = some 4294967295 ∧ sp.n = 1 := by
  obtain ⟨sp, h1, h2, h3, -⟩ :=
    numeric_narrowing_c9
      (Json.obj [("max_tokens", Json.num (-1)), ("n", Json.num 4294967297)])
      ⟨some (-1), none, none, none, none, some 4294967297, none, false, none⟩
      rfl
  exact ⟨sp, h1, h2.trans rfl, h3.trans rfl⟩

/-- C2 counterexample: when the request-ID header is present with an
empty value, the code returns that empty value verbatim — not a
freshly generated identifier, and the result is the empty string. -/
theorem request_id_c2_counterexample :
    ExtractRequestID [(RequestIdHeaderKey, "")] "generated-uuid" = "" ∧
      ("" : String) ≠ "generated-uuid" :=
  ⟨rfl, by decide⟩

/-- C2 (amended): the identifier equals the inbound request-ID header
value whenever the header key is present — including when that value
is the empty string — and is the freshly generated (non-empty) unique
identifier only when the key is absent, in which case the identifier
is never empty. -/
theorem request_id_c2 (headers : List (String × String)) (freshId : String)
    (hfresh : freshId ≠ "") :
    (∀ v, headerLookup headers RequestIdHeaderKey = some v →
      ExtractRequestID headers freshId = v) ∧
    (headerLookup headers RequestIdHeaderKey = none →
      ExtractRequestID headers freshId = freshId ∧
      ExtractRequestID headers freshId ≠ "") := by
  constructor
  · intro v hv
    simp [ExtractRequestID, hv]
  · intro hnone
    simp [ExtractRequestID, hnone, hfresh]

/-- Witness for C2 (amended): with no headers, the result is the fresh
identifier and is non-empty. -/
theorem request_id_c2_witness :
    ExtractRequestID [] "3f2a" = "3f2a" ∧ ExtractRequestID [] "3f2a" ≠ "" :=
  (request_id_c2 [] "3f2a" (by decide)).2 rfl

/-- C4: with a chat-completion view present, a body whose sampling
subset decodes with `stream: true` is rejected with
UnsupportedFeature; a body whose sampling decode fails is rejected
with MalformedInput; and every successful transcoding result carries
`stream = false`. -/
theorem streaming_rejection_c4 (headers : List (String × String))
    (freshId : String) (body : Json) (extractedBody : LLMRequestBody)
    (cc : ChatCompletionsRequest)
    (hchat : extractedBody.chatCompletions = some cc) :
    (∀ p, decodeSamplingParams body = some p → p.stream = true →
      TranscodeJsonToGrpc headers freshId body extractedBody =
        Except.error Err.UnsupportedFeature) ∧
    (decodeSamplingParams body = none →
      TranscodeJsonToGrpc headers freshId body extractedBody =
        Except.error Err.MalformedInput) ∧
    (∀ req, TranscodeJsonToGrpc headers freshId body extractedBody =
        Except.ok req → req.stream = false) := by
  refine ⟨?_, ?_, ?_⟩
  · intro p hdec hstream
    simp [TranscodeJsonToGrpc, ExtractCombinedPrompt, hchat,
      parseSamplingParams_eq _ _ hdec, hstream]
  · intro hdec
    have hps : ParseSamplingParams body = Except.error Err.MalformedInput := by
      simp [ParseSamplingParams, hdec]
    simp [TranscodeJsonToGrpc, ExtractCombinedPrompt, hchat, hps]
  · intro req hok
    unfold TranscodeJsonToGrpc at hok
    cases hprompt : ExtractCombinedPrompt extractedBody with
    | error e => rw [hprompt] at hok; exact absurd hok (by simp)
    | ok prompt =>
        rw [hprompt] at hok
        cases hps : ParseSamplingParams body with
        | error e => rw [hps] at hok; exact absurd hok (by simp)
        | ok pr =>
            obtain ⟨sp, stream⟩ := pr
            rw [hps] at hok
            cases stream with
            | true => exact absurd hok (by simp)
            | false =>
                simp only [Bool.false_eq_true, if_false,
                  Except.ok.injEq] at hok
                rw [← hok]

/-- Witness for C4: a chat request with `stream: true` is rejected
with UnsupportedFeature. -/
theorem streaming_rejection_c4_witness :
    TranscodeJsonToGrpc [] "req-1" (Json.obj [("stream", Json.bool true)])
        ⟨some ⟨[⟨"user", "Hi"⟩]⟩⟩ =
      Except.error Err.UnsupportedFeature :=
  (streaming_rejection_c4 [] "req-1" (Json.obj [("stream", Json.bool true)])
      ⟨some ⟨[⟨"user", "Hi"⟩]⟩⟩ ⟨[⟨"user", "Hi"⟩]⟩ rfl).1
    ⟨none, none, none, none, none, none, none, true, none⟩ rfl rfl

/-- The spec's prompt-combination: each message's plain-text content
followed by a newline, in message order. -/
def combinedPromptSpec : List Message → String
  | [] => ""
  | msg :: rest => msg.content ++ "\n" ++ combinedPromptSpec rest

lemma foldl_combinedPrompt (msgs : List Message) (init : String) :
    msgs.foldl (fun acc msg => acc ++ msg.content ++ "\n") init =
      init ++ combinedPromptSpec msgs := by
  induction msgs generalizing init with
  | nil => simp [combinedPromptSpec]
  | cons m rest ih =>
      rw [List.foldl_cons, ih]
      simp [combinedPromptSpec, String.append_assoc]

/-- C6: with a chat-completion view, the combined prompt is the
concatenation of each message's plain-text content followed by a
newline, in message order; without one, prompt combination fails with
UnsupportedInput. -/
theorem prompt_combination_c6 (extractedBody : LLMRequestBody) :
    (∀ cc, extractedBody.chatCompletions = some cc →
      ExtractCombinedPrompt extractedBody =
        Except.ok (combinedPromptSpec cc.messages)) ∧
    (extractedBody.chatCompletions = none →
      ExtractCombinedPrompt extractedBody =
        Except.error Err.UnsupportedInput) := by
  constructor
  · intro cc hcc
    simp only [ExtractCombinedPrompt, hcc]
    rw [foldl_combinedPrompt]
    simp
  · intro hnone
    simp [ExtractCombinedPrompt, hnone]

/-- Witness for C6: `[{content:"Hello"}]` combines to `"Hello\n"`. -/
theorem prompt_combination_c6_witness :
    ExtractCombinedPrompt ⟨some ⟨[⟨"user", "Hello"⟩]⟩⟩ =
      Except.ok "Hello\n" :=
  (prompt_combination_c6 ⟨some ⟨[⟨"user", "Hello"⟩]⟩⟩).1
    ⟨[⟨"user", "Hello"⟩]⟩ rfl

/-- C1: every successful result of the transcoding parser's
parse-response and parse-stream-response satisfies
total = prompt + completion, for all wire counter values. -/
theorem usage_total_c1 (d1 d2 : Option GenerateResponse) :
    (∀ pr, VLLMParseResponse d1 = Except.ok pr →
      pr.usage.totalTokens =
        pr.usage.promptTokens + pr.usage.completionTokens) ∧
    (∀ pr, VLLMParseStreamResponse d2 = Except.ok pr →
      pr.usage.totalTokens =
        pr.usage.promptTokens + pr.usage.completionTokens) := by
  constructor
  · intro pr h
    cases d1 with
    | none => exact absurd h (by simp [VLLMParseResponse])
    | some resp =>
        cases hc : resp.getComplete with
        | none =>
            simp only [VLLMParseResponse, hc] at h
            exact Except.noConfusion h
        | some c =>
            simp only [VLLMParseResponse, hc, Except.ok.injEq] at h
            subst h
            rfl
  · intro pr h
    cases d2 with
    | none => exact absurd h (by simp [VLLMParseStreamResponse])
    | some resp =>
        cases hc : resp.getComplete with
        | some c =>
            simp only [VLLMParseStreamResponse, hc, Except.ok.injEq] at h
            subst h
            rfl
        | none =>
            cases hch : resp.getChunk with
            | none =>
                simp only [VLLMParseStreamResponse, hc, hch] at h
                exact Except.noConfusion h
            | some ch =>
                simp only [VLLMParseStreamResponse, hc, hch,
                  Except.ok.injEq] at h
                subst h
                rfl

/-- Witness for C1: a complete section with 10/20 and a chunk with
1/2 both yield a recomputed total. -/
theorem usage_total_c1_witness :
    (⟨⟨10, 20, 30⟩⟩ : ParsedResponse).usage.totalTokens =
        (⟨⟨10, 20, 30⟩⟩ : ParsedResponse).usage.promptTokens +
          (⟨⟨10, 20, 30⟩⟩ : ParsedResponse).usage.completionTokens ∧
      (⟨⟨1, 2, 3⟩⟩ : ParsedResponse).usage.totalTokens =
        (⟨⟨1, 2, 3⟩⟩ : ParsedResponse).usage.promptTokens +
          (⟨⟨1, 2, 3⟩⟩ : ParsedResponse).usage.completionTokens :=
  ⟨(usage_total_c1
      (some ⟨some (GenerateResponseBody.complete ⟨10, 20, "stop"⟩)⟩)
      (some ⟨some (GenerateResponseBody.chunk ⟨1, 2⟩)⟩)).1
    ⟨⟨10, 20, 30⟩⟩ rfl,
   (usage_total_c1
      (some ⟨some (GenerateResponseBody.complete ⟨10, 20, "stop"⟩)⟩)
      (some ⟨some (GenerateResponseBody.chunk ⟨1, 2⟩)⟩)).2
    ⟨⟨1, 2, 3⟩⟩ rfl⟩

/-- C7: parse-response fails with MalformedInput when the bytes do not
decode, with IncompleteResponse when the decoded message has no
complete section, and succeeds with Usage{p, c, p+c} when the complete
section carries counts p and c. -/
theorem response_taxonomy_c7 (decoded : Option GenerateResponse) :
    (decoded = none →
      VLLMParseResponse decoded = Except.error Err.MalformedInput) ∧
    (∀ resp, decoded = some resp → resp.getComplete = none →
      VLLMParseResponse decoded = Except.error Err.IncompleteResponse) ∧
    (∀ resp c, decoded = some resp → resp.getComplete = some c →
      VLLMParseResponse decoded =
        Except.ok ⟨⟨c.promptTokens, c.completionTokens,
                    c.promptTokens + c.completionTokens⟩⟩) := by
  refine ⟨?_, ?_, ?_⟩
  · intro h; subst h; rfl
  · intro resp h hc
    subst h
    simp only [VLLMParseResponse, hc]
  · intro resp c h hc
    subst h
    simp only [VLLMParseResponse, hc]

/-- Witness for C7: `{complete:{prompt_tokens:10, completion_tokens:20}}`
yields Usage{10,20,30}, and a response with no complete section yields
IncompleteResponse. -/
theorem response_taxonomy_c7_witness :
    VLLMParseResponse
        (some ⟨some (GenerateResponseBody.complete ⟨10, 20, "stop"⟩)⟩) =
      Except.ok ⟨⟨10, 20, 30⟩⟩ ∧
    VLLMParseResponse (some ⟨none⟩) =
      Except.error Err.IncompleteResponse :=
  ⟨(response_taxonomy_c7
      (some ⟨some (GenerateResponseBody.complete ⟨10, 20, "stop"⟩)⟩)).2.2
    ⟨some (GenerateResponseBody.complete ⟨10, 20, "stop"⟩)⟩
    ⟨10, 20, "stop"⟩ rfl rfl,
   (response_taxonomy_c7 (some ⟨none⟩)).2.1 ⟨none⟩ rfl rfl⟩

/-- C8 (documents the code bug): when the usage-extraction collaborator
reports no usage and no error, the pass-through parser's unary
parse-response returns a nil response together with a nil error — a
success signal with no usage-bearing response, instead of the
IncompleteResponse the contract requires; the streaming variant does
fail as specified. -/
theorem pass_through_no_usage_c8 :
    OpenAIParseResponse none none = (none, none) ∧
    OpenAIParseStreamResponse none = (none, some Err.IncompleteResponse) :=
  ⟨rfl, rfl⟩

end PayloadProcess
